import Mathlib

/-!
Shallow embedding of the reputation-scoring and candidate-selection pipeline of
the `ninjaballz/csp` repository (files `src/check.py` and
`src/scripts/fetch-clean-cidr.py`), together with theorems settling the frozen
claims about it.

Modelling conventions:
* Machine `float` scores are modelled as `ℚ` (all confidences in the source are
  small integers; the only arithmetic is sum, division by a list length, `max`
  and comparisons, all exact here).
* Each network interaction is modelled by an explicit outcome value
  (`DnsOutcome`, `HttpOutcome`) passed to the check function; a Python
  `try/except` around the interaction becomes a `match` on that outcome.
* Python's `random.randint` / `random.choice` become explicit extra arguments
  (an offset, a pick index) constrained exactly as the source constrains them.
* Python triples `(None | True | False, score)` become `Option Bool × ℚ`
  (`some true` = Clean, `some false` = Listed, `none` = Unknown).
-/

namespace Csp

/-- Outcome of one `socket.gethostbyname` call: the resolved address string,
`socket.gaierror` (NXDOMAIN), or any other exception (timeout etc.). -/
inductive DnsOutcome where
  | resolved (addr : String)
  | nxdomain
  | failure
deriving Repr, DecidableEq

/-- Outcome of one `requests.get` call against the StopForumSpam API: a
response with a status code and the decoded `appears`/`confidence` fields, or
any exception (timeout, malformed JSON, unreachable). -/
inductive HttpOutcome where
  | success (status : Nat) (appears : Nat) (confidence : ℚ)
  | failure
deriving Repr, DecidableEq

/-- Digits-only string-to-number conversion, modelling Python's `int(s)` on
DNSBL answer octets; `none` models `int` raising `ValueError` (which the
source catches with its surrounding `except`). -/
def parseDigits (s : String) : Option Nat :=
  if s.data ≠ [] ∧ s.data.all Char.isDigit then
    some (s.data.foldl (fun n c => n * 10 + (c.toNat - 48)) 0)
  else none

/-- Helper for `splitDot`: accumulates the current chunk (reversed). -/
def splitDotAux : List Char → List Char → List String
  | [], acc => [String.mk acc.reverse]
  | c :: cs, acc =>
      if c = '.' then String.mk acc.reverse :: splitDotAux cs []
      else splitDotAux cs (c :: acc)

/-- Python's `s.split('.')` (kernel-reducible, unlike `String.splitOn`). -/
def splitDot (s : String) : List String := splitDotAux s.data []

/-- Model of `check_stopforumspam` from `src/check.py` (lines 61-78); the copy in
`src/scripts/fetch-clean-cidr.py` (lines 38-55) has identical logic.
A non-200 status falls through the `if` and reaches the trailing
`return None, 25`, as does any exception. -/
def check_stopforumspam : HttpOutcome → Option Bool × ℚ
  | .success status appears confidence =>
      if status = 200 then
        if appears = 0 then (some true, 0)
        else (some false, min confidence 100)
      else (none, 25)
  | .failure => (none, 25)

namespace CheckPy

/-- Classification of a resolved Spamhaus ZEN answer (already split on `.`),
the body of the `try` block of `check_spamhaus_zen` in `src/check.py`
(lines 36-52): a `127.0.0.code` answer is classified by the bits of `code`
(SBL 95, CSS 90, PBL 85, XBL 100, otherwise 80); an unparseable octet makes
`int` raise, landing in the generic handler `(None, 50)`; any other answer
shape is "listed but couldn't parse code" `(False, 90)`. -/
def classify_spamhaus_answer : List String → Option Bool × ℚ
  | [a, b, c, d] =>
      if a = "127" ∧ b = "0" ∧ c = "0" then
        match parseDigits d with
        | none => (none, 50)
        | some code =>
            if code &&& 2 ≠ 0 then (some false, 95)
            else if code &&& 4 ≠ 0 then (some false, 90)
            else if code &&& 8 ≠ 0 then (some false, 85)
            else if code &&& 16 ≠ 0 then (some false, 100)
            else (some false, 80)
      else (some false, 90)
  | _ => (some false, 90)

/-- Model of `FastBlacklistChecker.check_spamhaus_zen` from `src/check.py`
(lines 25-59).  `gaierror` means not listed `(True, 0)`; any other
exception gives `(None, 50)`. -/
def check_spamhaus_zen : DnsOutcome → Option Bool × ℚ
  | .resolved addr => classify_spamhaus_answer (splitDot addr)
  | .nxdomain => (some true, 0)
  | .failure => (none, 50)

/-- Model of `FastBlacklistChecker.check_sorbs` from `src/check.py` (lines 80-103).
The loop queries the SORBS lists in order; the first resolved answer returns
`(False, 85)`; `gaierror` and every other exception both `continue`; falling
off the loop returns `(True, 0)`.  The argument list carries one outcome per
SORBS list (three in the source). -/
def check_sorbs : List DnsOutcome → Option Bool × ℚ
  | [] => (some true, 0)
  | o :: rest =>
      match o with
      | .resolved _ => (some false, 85)
      | .nxdomain => check_sorbs rest
      | .failure => check_sorbs rest

/-- Model of `FastBlacklistChecker.check_barracuda` from `src/check.py`
(lines 105-117). -/
def check_barracuda : DnsOutcome → Option Bool × ℚ
  | .resolved _ => (some false, 80)
  | .nxdomain => (some true, 0)
  | .failure => (none, 25)

/-- Python's `max(scores)` on a list (the `if scores else 50` default of
line 172 is kept for the empty case, which the caller never reaches). -/
def pyMax : List ℚ → ℚ
  | [] => 50
  | x :: xs => xs.foldl max x

/-- The `scores` list built by `get_spam_score` (lines 137-154 of
`src/check.py`): the confidences of the results whose verdict is not `None`,
in backend order (Spamhaus, SORBS, Barracuda, StopForumSpam). -/
def det_scores (r1 r2 r3 r4 : Option Bool × ℚ) : List ℚ :=
  (if r1.1 ≠ none then [r1.2] else []) ++
    (if r2.1 ≠ none then [r2.2] else []) ++
      (if r3.1 ≠ none then [r3.2] else []) ++
        (if r4.1 ≠ none then [r4.2] else [])

/-- The aggregation logic of `FastBlacklistChecker.get_spam_score` from
`src/check.py` (lines 119-180), as a function of the four backend results
`r1 = spamhaus`, `r2 = sorbs`, `r3 = barracuda`, `r4 = stopforumspam`:
primary Listed short-circuits to `(spamhaus_score, True)`; otherwise the
non-`None` confidences are averaged when there are at least 3 and maxed when
there are 1-2; no signal at all gives the neutral `(50, False)`;
`is_blacklisted = avg_score > 15`. -/
def get_spam_score (r1 r2 r3 r4 : Option Bool × ℚ) : ℚ × Bool :=
  if r1.1 = some false then (r1.2, true)
  else if det_scores r1 r2 r3 r4 = [] then (50, false)
  else if 3 ≤ (det_scores r1 r2 r3 r4).length then
    ((det_scores r1 r2 r3 r4).sum / ((det_scores r1 r2 r3 r4).length : ℚ),
      decide (15 < (det_scores r1 r2 r3 r4).sum / ((det_scores r1 r2 r3 r4).length : ℚ)))
  else
    (pyMax (det_scores r1 r2 r3 r4), decide (15 < pyMax (det_scores r1 r2 r3 r4)))

/-- The whole of `get_spam_score` including its four backend calls, as a
function of the underlying network outcomes. -/
def spam_score_of_probes (sph : DnsOutcome) (sorbs : List DnsOutcome)
    (bar : DnsOutcome) (sfs : HttpOutcome) : ℚ × Bool :=
  get_spam_score (check_spamhaus_zen sph) (check_sorbs sorbs)
    (check_barracuda bar) (check_stopforumspam sfs)

end CheckPy

namespace FetchClean

/-- Model of `FastBlacklistChecker.check_spamhaus_zen` from
`src/scripts/fetch-clean-cidr.py` (lines 24-36): any resolved answer is
`(False, 100)`, `gaierror` is `(True, 0)`, anything else `(None, 50)`. -/
def check_spamhaus_zen : DnsOutcome → Option Bool × ℚ
  | .resolved _ => (some false, 100)
  | .nxdomain => (some true, 0)
  | .failure => (none, 50)

/-- The `scores` list of the script's `get_spam_score` (lines 66-70 of
`src/scripts/fetch-clean-cidr.py`). -/
def det_scores (sph sfs : Option Bool × ℚ) : List ℚ :=
  (if sph.1 ≠ none then [sph.2] else []) ++ (if sfs.1 ≠ none then [sfs.2] else [])

/-- Model of `FastBlacklistChecker.get_spam_score` from
`src/scripts/fetch-clean-cidr.py` (lines 57-78): primary Listed
short-circuits to the hardcoded `(100, True)`; otherwise the non-`None`
confidences are always arithmetically averaged (never maxed) and
`is_blacklisted = avg_score > 50`. -/
def get_spam_score (sphOut : DnsOutcome) (sfsOut : HttpOutcome) : ℚ × Bool :=
  if (check_spamhaus_zen sphOut).1 = some false then (100, true)
  else if det_scores (check_spamhaus_zen sphOut) (check_stopforumspam sfsOut) = [] then
    (50, false)
  else
    ((det_scores (check_spamhaus_zen sphOut) (check_stopforumspam sfsOut)).sum /
        ((det_scores (check_spamhaus_zen sphOut) (check_stopforumspam sfsOut)).length : ℚ),
      decide (50 < (det_scores (check_spamhaus_zen sphOut) (check_stopforumspam sfsOut)).sum /
        ((det_scores (check_spamhaus_zen sphOut) (check_stopforumspam sfsOut)).length : ℚ)))

end FetchClean

namespace CheckPy

/-- Model of `cidrs_per_country` from `main` in `src/check.py` (line 806):
`max(1, total_cidrs // len(countries))`.  Python `//` is floor division,
hence `Int.fdiv`. -/
def cidrs_per_country (total : Int) (c : Nat) : Int := max 1 (Int.fdiv total (c : Int))

/-- Model of `remaining_cidrs` from `main` in `src/check.py` (line 807):
`total_cidrs % len(countries)`.  Python `%` with a positive divisor is
`Int.emod`. -/
def remaining_cidrs (total : Int) (c : Nat) : Int := Int.emod total (c : Int)

/-- The per-country targets computed by `main` in `src/check.py`
(lines 805-823): country at position `i` gets
`cidrs_per_country + (1 if i < remaining_cidrs else 0)`. -/
def quota_targets (total : Int) (countries : List String) : List Int :=
  (List.range countries.length).map
    (fun (i : Nat) => cidrs_per_country total countries.length +
      if (i : Int) < remaining_cidrs total countries.length then 1 else 0)

/-- A country-code token is kept by `main` (lines 780-785 of `src/check.py`)
iff it has exactly 2 characters, all alphabetic. -/
def filter_valid_countries (raw : List String) : List String :=
  raw.filter (fun c => c.length = 2 && c.data.all Char.isAlpha)

/-- Model of `if args.total_cidrs: ... else get_total_cidrs_from_user()` from `main`
(lines 798-803 of `src/check.py`): Python truthiness keeps the argument value
whenever it is nonzero (including negative values); only an exact 0 falls
back to the environment/interactive source. -/
def resolve_total_cidrs (args_total : Int) (fallback_total : Int) : Int :=
  if args_total ≠ 0 then args_total else fallback_total

/-- The configuration stage of `main` (lines 776-823 of `src/check.py`) up to
the point where per-country collection (network activity) begins: `none`
models the early `return` on an empty valid-country list; `some targets`
models proceeding into the `process_country` loop with those targets. -/
def main_quota_stage (countries_raw : List String) (args_total : Int)
    (fallback_total : Int) : Option (List Int) :=
  if filter_valid_countries countries_raw = [] then none
  else some (quota_targets (resolve_total_cidrs args_total fallback_total)
    (filter_valid_countries countries_raw))

/-- An IPv4 network as produced by `ipaddress.IPv4Network(cidr, strict=False)`:
the masked network address and the routing-mask length. -/
structure Ipv4Net where
  base : Nat
  prefixlen : Nat
deriving Repr, DecidableEq

/-- Number of addresses yielded by Python's `network.hosts()`: all addresses
except network and broadcast for masks up to /30, both addresses for a /31,
and the single address for a /32. -/
def hostCount (n : Ipv4Net) : Nat :=
  if n.prefixlen ≤ 30 then 2 ^ (32 - n.prefixlen) - 2
  else if n.prefixlen = 31 then 2 else 1

/-- The address at index `i` of the `all_hosts` list built by
`generate_test_ip` (`list(network.hosts())`): hosts start at `base + 1`
for masks up to /30 and at `base` for /31 and /32. -/
def hostAddr (n : Ipv4Net) (i : Nat) : Nat :=
  if n.prefixlen ≤ 30 then n.base + 1 + i else n.base + i

/-- Model of `generate_test_ip` from `src/check.py` (lines 406-422).  `parsed = none`
models an unparseable CIDR string (the except handler returns `None`).
`offset` models `random.randint(-min(100, middle//2), min(100, middle//2))`
and `pick` models `random.choice`; they are passed explicitly.  Python list
indexing accepts `-H ≤ idx < H` (negative values wrap); an out-of-range index
raises `IndexError`, which the surrounding `except` turns into `None`. -/
def generate_test_ip (parsed : Option Ipv4Net) (offset : Int) (pick : Nat) : Option Nat :=
  match parsed with
  | none => none
  | some n =>
      if 10 < hostCount n then
        let idx : Int := ((hostCount n / 2 : Nat) : Int) + offset
        let j : Int := if idx < 0 then (hostCount n : Int) + idx else idx
        if 0 ≤ j ∧ j < (hostCount n : Int) then some (hostAddr n j.toNat) else none
      else if 0 < hostCount n then some (hostAddr n (pick % hostCount n))
      else some (n.base + 1)

/-- The record built by `test_cidr_cleanliness` (`src/check.py`,
lines 605-619) for one candidate. -/
structure TestResult where
  cidr : String
  test_ip : String
  score : ℚ
  blacklisted : Bool
  clean : Bool
deriving Repr, DecidableEq

/-- Model of `test_cidr_cleanliness` from `src/check.py` (lines 605-619), as a function
of the probe address and of the `(score, is_blacklisted)` pair returned by
`checker.get_spam_score`: the stored `clean` flag is `score <= 10`. -/
def test_cidr_cleanliness (cidr test_ip : String) (sb : ℚ × Bool) : TestResult :=
  { cidr := cidr, test_ip := test_ip, score := sb.1, blacklisted := sb.2,
    clean := decide (sb.1 ≤ 10) }

/-- The comparison used by `tested_results.sort(key=lambda x: x['score'])`. -/
def scoreLe (a b : TestResult) : Bool := decide (a.score ≤ b.score)

/-- Model of `tested_results.sort(key=lambda x: x['score'])` (line 733 of
`src/check.py`); Python's sort is a stable ascending sort. -/
def sortByScore (l : List TestResult) : List TestResult := l.mergeSort scoreLe

/-- The selection tail of `process_country` (`src/check.py`, lines 732-757):
sort ascending by score, take up to `target` clean results, and if fewer
than `target` are clean, extend with the best-scored non-clean results. -/
def select_cidrs (tested : List TestResult) (target : Nat) : List TestResult :=
  if ((((sortByScore tested).filter (fun r => r.clean)).take target).length) < target then
    (((sortByScore tested).filter (fun r => r.clean)).take target) ++
      ((sortByScore tested).filter (fun r => !r.clean)).take
        (target - (((sortByScore tested).filter (fun r => r.clean)).take target).length)
  else ((sortByScore tested).filter (fun r => r.clean)).take target

/-- Worker for `dedup_cidrs`, carrying the `seen` set (modelled as a list
queried by membership, matching Python's `set` exactly for this use). -/
def dedupFrom (seen : List String) : List String → List String
  | [] => []
  | c :: rest =>
      if c ∈ seen then dedupFrom seen rest
      else c :: dedupFrom (c :: seen) rest

/-- The `seen` set accumulated by the dedup loop after scanning a list. -/
def seenAfter (seen : List String) : List String → List String
  | [] => seen
  | c :: rest =>
      if c ∈ seen then seenAfter seen rest else seenAfter (c :: seen) rest

/-- The duplicate-removal pass of `process_country` (`src/check.py`,
lines 676-685): keep each CIDR string at its first occurrence, preserving
order. -/
def dedup_cidrs (l : List String) : List String := dedupFrom [] l

end CheckPy

/-- If the primary Spamhaus result is Listed, `get_spam_score` returns its
confidence with `blacklisted = true` (lines 131-134 of `src/check.py`). -/
theorem get_spam_score_of_primary_listed (r1 r2 r3 r4 : Option Bool × ℚ)
    (h : r1.1 = some false) : CheckPy.get_spam_score r1 r2 r3 r4 = (r1.2, true) := by
  simp [CheckPy.get_spam_score, h]

/-- Every Listed classification of a resolved Spamhaus ZEN answer carries a
confidence of at least 80. -/
theorem classify_spamhaus_conf (parts : List String)
    (h : (CheckPy.classify_spamhaus_answer parts).1 = some false) :
    80 ≤ (CheckPy.classify_spamhaus_answer parts).2 := by
  unfold CheckPy.classify_spamhaus_answer at h ⊢
  split at h
  · rename_i a b c d
    by_cases h1 : a = "127" ∧ b = "0" ∧ c = "0"
    · rw [if_pos h1] at h ⊢
      rcases hp : parseDigits d with _ | code
      · simp [hp] at h
      · simp only [] at h ⊢
        split_ifs at h ⊢ <;> norm_num
    · rw [if_neg h1] at h ⊢; norm_num
  · norm_num

/-- Every Listed verdict of `check_spamhaus_zen` carries a confidence of at
least 80. -/
theorem check_spamhaus_zen_listed_conf (o : DnsOutcome)
    (h : (CheckPy.check_spamhaus_zen o).1 = some false) :
    80 ≤ (CheckPy.check_spamhaus_zen o).2 := by
  cases o with
  | resolved addr => exact classify_spamhaus_conf _ h
  | nxdomain => simp [CheckPy.check_spamhaus_zen] at h
  | failure => simp [CheckPy.check_spamhaus_zen] at h

/-- In the non-primary path, a `true` blacklist verdict forces the returned
score strictly above 15; in the primary path it is forced by the given
confidence bound. -/
theorem get_spam_score_blacklisted_gt (r1 r2 r3 r4 : Option Bool × ℚ)
    (hconf : r1.1 = some false → 15 < r1.2) :
    (CheckPy.get_spam_score r1 r2 r3 r4).2 = true →
      15 < (CheckPy.get_spam_score r1 r2 r3 r4).1 := by
  unfold CheckPy.get_spam_score
  split_ifs with h1 h2 h3 <;> intro hb
  · exact hconf h1
  · simp at hb
  · exact of_decide_eq_true hb
  · exact of_decide_eq_true hb

/-- Claim C1: whenever the primary backend (Spamhaus ZEN) reports Listed,
the aggregate of `get_spam_score` has value equal to the primary backend's
confidence and `blacklisted = true`, regardless of all other backends — in
`src/check.py` for arbitrary results of the other backends, and in
`src/scripts/fetch-clean-cidr.py` for whatever its own primary check
produced. -/
theorem primary_listed_determines_aggregate :
    (∀ (c : ℚ) (r2 r3 r4 : Option Bool × ℚ),
      CheckPy.get_spam_score (some false, c) r2 r3 r4 = (c, true)) ∧
    (∀ (sph : DnsOutcome) (sfs : HttpOutcome) (c : ℚ),
      FetchClean.check_spamhaus_zen sph = (some false, c) →
      FetchClean.get_spam_score sph sfs = (c, true)) := by
  constructor
  · intro c r2 r3 r4
    exact get_spam_score_of_primary_listed (some false, c) r2 r3 r4 rfl
  · intro sph sfs c h
    cases sph with
    | resolved addr =>
        have hc : (100 : ℚ) = c := by
          simpa [FetchClean.check_spamhaus_zen] using congrArg Prod.snd h
        rw [← hc]
        simp [FetchClean.get_spam_score, FetchClean.check_spamhaus_zen]
    | nxdomain => simp [FetchClean.check_spamhaus_zen] at h
    | failure => simp [FetchClean.check_spamhaus_zen] at h

/-- Claim C1, witness: a concrete Listed primary answer. -/
theorem primary_listed_determines_aggregate_witness :
    FetchClean.check_spamhaus_zen (DnsOutcome.resolved "127.0.0.2") = (some false, 100) ∧
    FetchClean.get_spam_score (DnsOutcome.resolved "127.0.0.2") HttpOutcome.failure =
      (100, true) :=
  ⟨rfl, primary_listed_determines_aggregate.2 _ _ 100 rfl⟩

/-- Claim C2, counterexample: in `src/scripts/fetch-clean-cidr.py`, with the
two determinate signals Clean(0) from Spamhaus and Listed(60) from
StopForumSpam, `get_spam_score` returns their mean 30, not their maximum
60 — refuting the claim that 1-2 determinate signals yield the maximum. -/
theorem script_two_signals_mean_not_max :
    FetchClean.check_spamhaus_zen DnsOutcome.nxdomain = (some true, 0) ∧
    check_stopforumspam (HttpOutcome.success 200 5 60) = (some false, 60) ∧
    FetchClean.det_scores (some true, 0) (some false, 60) = [0, 60] ∧
    CheckPy.pyMax [(0 : ℚ), 60] = 60 ∧
    (FetchClean.get_spam_score DnsOutcome.nxdomain (HttpOutcome.success 200 5 60)).1 = 30 ∧
    (30 : ℚ) ≠ 60 := by
  refine ⟨rfl, by norm_num [check_stopforumspam], rfl, by norm_num [CheckPy.pyMax], ?_, by norm_num⟩
  simp [FetchClean.get_spam_score, FetchClean.det_scores, FetchClean.check_spamhaus_zen,
    check_stopforumspam]
  norm_num

/-- Claim C2, amended: in `src/check.py`, when the primary backend is not
Listed, the aggregate value is the arithmetic mean of the determinate
(non-Unknown) confidences when at least 3 are present and their maximum when
1-2 are present; in `src/scripts/fetch-clean-cidr.py` it is always the
arithmetic mean of the determinate confidences (of which at most 2 exist). -/
theorem mean_max_regimes :
    (∀ r1 r2 r3 r4 : Option Bool × ℚ, r1.1 ≠ some false →
      CheckPy.det_scores r1 r2 r3 r4 ≠ [] →
      (3 ≤ (CheckPy.det_scores r1 r2 r3 r4).length →
        (CheckPy.get_spam_score r1 r2 r3 r4).1 =
          (CheckPy.det_scores r1 r2 r3 r4).sum / ((CheckPy.det_scores r1 r2 r3 r4).length : ℚ)) ∧
      ((CheckPy.det_scores r1 r2 r3 r4).length < 3 →
        (CheckPy.get_spam_score r1 r2 r3 r4).1 = CheckPy.pyMax (CheckPy.det_scores r1 r2 r3 r4))) ∧
    (∀ (sph : DnsOutcome) (sfs : HttpOutcome),
      (FetchClean.check_spamhaus_zen sph).1 ≠ some false →
      FetchClean.det_scores (FetchClean.check_spamhaus_zen sph) (check_stopforumspam sfs) ≠ [] →
      (FetchClean.get_spam_score sph sfs).1 =
        (FetchClean.det_scores (FetchClean.check_spamhaus_zen sph)
            (check_stopforumspam sfs)).sum /
          ((FetchClean.det_scores (FetchClean.check_spamhaus_zen sph)
              (check_stopforumspam sfs)).length : ℚ)) := by
  constructor
  · intro r1 r2 r3 r4 h1 h2
    constructor
    · intro h3
      simp only [CheckPy.get_spam_score, if_neg h1, if_neg h2, if_pos h3]
    · intro h3
      simp only [CheckPy.get_spam_score, if_neg h1, if_neg h2, if_neg (by omega : ¬ 3 ≤ (CheckPy.det_scores r1 r2 r3 r4).length)]
  · intro sph sfs h1 h2
    simp only [FetchClean.get_spam_score, if_neg h1, if_neg h2]

/-- Claim C2, witness: three determinate signals averaged, two maxed, and the
script variant averaging two. -/
theorem mean_max_regimes_witness :
    ((some true, (0 : ℚ)) : Option Bool × ℚ).1 ≠ some false ∧
    CheckPy.det_scores (some true, 0) (some true, 0) (none, 25) (some false, 60) ≠ [] ∧
    (CheckPy.get_spam_score (some true, 0) (some true, 0) (none, 25) (some false, 60)).1 =
      ([(0 : ℚ), 0, 60].sum / 3) ∧
    (CheckPy.get_spam_score (some true, 0) (none, 25) (none, 25) (some false, 60)).1 =
      CheckPy.pyMax [(0 : ℚ), 60] ∧
    (FetchClean.get_spam_score DnsOutcome.nxdomain (HttpOutcome.success 200 5 60)).1 =
      ([(0 : ℚ), 60].sum / 2) := by
  refine ⟨by simp, by simp [CheckPy.det_scores], ?_, ?_, ?_⟩
  · have := (mean_max_regimes.1 (some true, 0) (some true, 0) (none, 25) (some false, 60)
      (by simp) (by simp [CheckPy.det_scores])).1 (by simp [CheckPy.det_scores])
    simpa [CheckPy.det_scores] using this
  · have := (mean_max_regimes.1 (some true, 0) (none, 25) (none, 25) (some false, 60)
      (by simp) (by simp [CheckPy.det_scores])).2 (by simp [CheckPy.det_scores])
    simpa [CheckPy.det_scores] using this
  · have := mean_max_regimes.2 DnsOutcome.nxdomain (HttpOutcome.success 200 5 60)
      (by simp [FetchClean.check_spamhaus_zen])
      (by simp [FetchClean.det_scores, FetchClean.check_spamhaus_zen, check_stopforumspam])
    simpa [FetchClean.det_scores, FetchClean.check_spamhaus_zen, check_stopforumspam] using this

/-- Claim C4, counterexample: when every SORBS DNS query fails with a
non-`gaierror` error (e.g. three timeouts), `check_sorbs` returns the
Clean verdict `(True, 0)` rather than the Unknown verdict `None` — refuting
the claim that every backend maps transport failure to Unknown. -/
theorem sorbs_failure_returns_clean :
    CheckPy.check_sorbs [DnsOutcome.failure, DnsOutcome.failure, DnsOutcome.failure] =
      (some true, 0) ∧ (some true : Option Bool) ≠ none := by
  exact ⟨rfl, by simp⟩

/-- Claim C4, amended: Spamhaus ZEN, Barracuda and StopForumSpam map any
transport or protocol failure to the Unknown verdict with fixed confidences
50, 25 and 25 respectively, and a non-200 StopForumSpam status likewise;
SORBS however skips each failed list and returns Clean `(True, 0)` whenever
no list resolves, even if every query failed.  No check raises: each is a
total function of its outcome. -/
theorem failure_maps_to_unknown :
    CheckPy.check_spamhaus_zen DnsOutcome.failure = (none, 50) ∧
    CheckPy.check_barracuda DnsOutcome.failure = (none, 25) ∧
    check_stopforumspam HttpOutcome.failure = (none, 25) ∧
    (∀ (s a : Nat) (c : ℚ), s ≠ 200 →
      check_stopforumspam (HttpOutcome.success s a c) = (none, 25)) ∧
    (∀ outs : List DnsOutcome,
      (∀ o ∈ outs, o = DnsOutcome.nxdomain ∨ o = DnsOutcome.failure) →
      CheckPy.check_sorbs outs = (some true, 0)) := by
  refine ⟨rfl, rfl, rfl, ?_, ?_⟩
  · intro s a c hs
    simp [check_stopforumspam, hs]
  · intro outs h
    induction outs with
    | nil => rfl
    | cons o rest ih =>
        rcases h o (List.mem_cons_self o rest) with ho | ho <;> subst ho <;>
          exact ih (fun x hx => h x (List.mem_cons_of_mem _ hx))

/-- Claim C4, witness: a failing non-200 status and an all-failure SORBS run. -/
theorem failure_maps_to_unknown_witness :
    (500 : Nat) ≠ 200 ∧
    check_stopforumspam (HttpOutcome.success 500 0 0) = (none, 25) ∧
    (∀ o ∈ [DnsOutcome.failure, DnsOutcome.nxdomain],
      o = DnsOutcome.nxdomain ∨ o = DnsOutcome.failure) ∧
    CheckPy.check_sorbs [DnsOutcome.failure, DnsOutcome.nxdomain] = (some true, 0) :=
  ⟨by decide, failure_maps_to_unknown.2.2.2.1 500 0 0 (by decide), by decide,
    failure_maps_to_unknown.2.2.2.2 [DnsOutcome.failure, DnsOutcome.nxdomain] (by decide)⟩

/-- Claim C8: with zero determinate signals and no primary Listed verdict,
`get_spam_score` returns the neutral aggregate `(50, false)` — in both
`src/check.py` and `src/scripts/fetch-clean-cidr.py`. -/
theorem neutral_aggregate_when_no_signals :
    (∀ c1 c2 c3 c4 : ℚ,
      CheckPy.get_spam_score (none, c1) (none, c2) (none, c3) (none, c4) = (50, false)) ∧
    (∀ (sph : DnsOutcome) (sfs : HttpOutcome),
      (FetchClean.check_spamhaus_zen sph).1 = none → (check_stopforumspam sfs).1 = none →
      FetchClean.get_spam_score sph sfs = (50, false)) := by
  constructor
  · intro c1 c2 c3 c4
    simp [CheckPy.get_spam_score, CheckPy.det_scores]
  · intro sph sfs h1 h2
    simp [FetchClean.get_spam_score, FetchClean.det_scores, h1, h2]

/-- Claim C8, witness: both probes failing. -/
theorem neutral_aggregate_when_no_signals_witness :
    (FetchClean.check_spamhaus_zen DnsOutcome.failure).1 = none ∧
    (check_stopforumspam HttpOutcome.failure).1 = none ∧
    FetchClean.get_spam_score DnsOutcome.failure HttpOutcome.failure = (50, false) :=
  ⟨rfl, rfl, neutral_aggregate_when_no_signals.2 _ _ rfl rfl⟩

/-- Claim C10: for every combination of backend outcomes, a score passing the
code's clean test (`score <= 10`) forces `blacklisted = false`; a `true`
blacklist flag forces a score strictly above 15; the primary Listed path
forces a score of at least 80; hence the score-only clean test coincides
with the conjunction `blacklisted = false AND score <= 10`. -/
theorem clean_test_coincides_with_conjunction :
    ∀ (sph : DnsOutcome) (sorbs : List DnsOutcome) (bar : DnsOutcome) (sfs : HttpOutcome),
      ((CheckPy.spam_score_of_probes sph sorbs bar sfs).1 ≤ 10 →
        (CheckPy.spam_score_of_probes sph sorbs bar sfs).2 = false) ∧
      ((CheckPy.spam_score_of_probes sph sorbs bar sfs).2 = true →
        15 < (CheckPy.spam_score_of_probes sph sorbs bar sfs).1) ∧
      ((CheckPy.check_spamhaus_zen sph).1 = some false →
        80 ≤ (CheckPy.spam_score_of_probes sph sorbs bar sfs).1) ∧
      ((CheckPy.spam_score_of_probes sph sorbs bar sfs).1 ≤ 10 ↔
        ((CheckPy.spam_score_of_probes sph sorbs bar sfs).2 = false ∧
          (CheckPy.spam_score_of_probes sph sorbs bar sfs).1 ≤ 10)) := by
  intro sph sorbs bar sfs
  have hconf : (CheckPy.check_spamhaus_zen sph).1 = some false →
      15 < (CheckPy.check_spamhaus_zen sph).2 := by
    intro h
    have := check_spamhaus_zen_listed_conf sph h
    linarith
  have hbl : (CheckPy.spam_score_of_probes sph sorbs bar sfs).2 = true →
      15 < (CheckPy.spam_score_of_probes sph sorbs bar sfs).1 :=
    get_spam_score_blacklisted_gt _ _ _ _ hconf
  have hclean : (CheckPy.spam_score_of_probes sph sorbs bar sfs).1 ≤ 10 →
      (CheckPy.spam_score_of_probes sph sorbs bar sfs).2 = false := by
    intro hs
    rcases hb : (CheckPy.spam_score_of_probes sph sorbs bar sfs).2 with _ | _
    · rfl
    · exact absurd hs (by have := hbl hb; linarith)
  refine ⟨hclean, hbl, ?_, ?_⟩
  · intro h
    have heq : CheckPy.spam_score_of_probes sph sorbs bar sfs =
        ((CheckPy.check_spamhaus_zen sph).2, true) :=
      get_spam_score_of_primary_listed _ _ _ _ h
    rw [heq]
    exact check_spamhaus_zen_listed_conf sph h
  · exact ⟨fun hs => ⟨hclean hs, hs⟩, fun hs => hs.2⟩

/-- Claim C10, witness: a CSS-listed probe address scores 90 with
blacklisted = true, and a clean probe scores 0 with blacklisted = false. -/
theorem clean_test_coincides_with_conjunction_witness :
    CheckPy.spam_score_of_probes (DnsOutcome.resolved "127.0.0.4") [] DnsOutcome.failure
      HttpOutcome.failure = (90, true) ∧
    (CheckPy.check_spamhaus_zen (DnsOutcome.resolved "127.0.0.4")).1 = some false ∧
    80 ≤ (CheckPy.spam_score_of_probes (DnsOutcome.resolved "127.0.0.4") [] DnsOutcome.failure
      HttpOutcome.failure).1 :=
  ⟨by decide, by decide,
    (clean_test_coincides_with_conjunction (DnsOutcome.resolved "127.0.0.4") [] DnsOutcome.failure
      HttpOutcome.failure).2.2.1 (by decide)⟩

/-- Sum of the per-country targets when the remainder lies within the country
count: base goes to everyone and the first `r` positions get one extra. -/
theorem quota_targets_sum_aux (b : Int) :
    ∀ (c : Nat) (r : Int), 0 ≤ r → r ≤ (c : Int) →
      ((List.range c).map (fun (i : Nat) => b + if (i : Int) < r then 1 else 0)).sum =
        (c : Int) * b + r := by
  intro c
  induction c with
  | zero =>
      intro r h0 h1
      simp only [Nat.cast_zero] at h1
      simp [show r = 0 by omega]
  | succ n ih =>
      intro r h0 h1
      rw [List.range_succ, List.map_append, List.sum_append]
      by_cases hr : r ≤ (n : Int)
      · rw [ih r h0 hr]
        simp only [List.map_cons, List.map_nil, List.sum_cons, List.sum_nil]
        rw [if_neg (by omega)]
        push_cast
        ring
      · have hr1 : r = (n : Int) + 1 := by push_cast at h1 ⊢; omega
        have hall : (List.range n).map (fun (i : Nat) => b + if (i : Int) < r then 1 else 0) =
            (List.range n).map (fun (i : Nat) => b + if (i : Int) < (n : Int) then 1 else 0) := by
          apply List.map_congr_left
          intro i hi
          have hin : i < n := List.mem_range.mp hi
          rw [if_pos (by omega), if_pos (by omega)]
        rw [hall, ih (n : Int) (by positivity) le_rfl]
        simp only [List.map_cons, List.map_nil, List.sum_cons, List.sum_nil]
        rw [if_pos (by omega)]
        rw [hr1]
        push_cast
        ring

/-- Claim C3, counterexample: with R = 2 and countries [A, B, C] the computed
targets are [2, 2, 1], summing to 5, while the claim predicts a sum of
max(C, R) = 3 for R < C. -/
theorem quota_sum_counterexample :
    CheckPy.quota_targets 2 ["A", "B", "C"] = [2, 2, 1] ∧
    (CheckPy.quota_targets 2 ["A", "B", "C"]).sum = 5 ∧
    ((5 : Int) ≠ max 3 2) := by
  refine ⟨?_, ?_, by decide⟩ <;> decide

/-- Claim C3, amended: the per-country targets are
`max(1, R div C) + (1 if i < R mod C else 0)`; their sum equals R when
R ≥ C, and equals C + R (not max(C, R)) when R < C, because the first
`R mod C = R` countries still receive the extra unit on top of the clamped
base 1; R = 10 over three countries yields [4, 3, 3]. -/
theorem quota_distribution :
    ∀ (R : Nat) (countries : List String), 1 ≤ R → 1 ≤ countries.length →
      (CheckPy.quota_targets (R : Int) countries =
        (List.range countries.length).map
          (fun (i : Nat) => (max 1 ((R / countries.length : Nat) : Int)) +
            if (i : Int) < ((R % countries.length : Nat) : Int) then 1 else 0)) ∧
      (countries.length ≤ R →
        (CheckPy.quota_targets (R : Int) countries).sum = R) ∧
      (R < countries.length →
        (CheckPy.quota_targets (R : Int) countries).sum = countries.length + R) ∧
      CheckPy.quota_targets 10 ["A", "B", "C"] = [4, 3, 3] := by
  intro R countries hR hC
  have hC0 : 0 < countries.length := hC
  have hfdiv : CheckPy.cidrs_per_country (R : Int) countries.length =
      max 1 ((R / countries.length : Nat) : Int) := by
    unfold CheckPy.cidrs_per_country
    rw [Int.fdiv_eq_ediv _ (by positivity)]
    norm_cast
  have hemod : CheckPy.remaining_cidrs (R : Int) countries.length =
      ((R % countries.length : Nat) : Int) := by
    unfold CheckPy.remaining_cidrs
    norm_cast
  have hform : CheckPy.quota_targets (R : Int) countries =
      (List.range countries.length).map
        (fun (i : Nat) => (max 1 ((R / countries.length : Nat) : Int)) +
          if (i : Int) < ((R % countries.length : Nat) : Int) then 1 else 0) := by
    unfold CheckPy.quota_targets
    rw [hfdiv, hemod]
  refine ⟨hform, ?_, ?_, by decide⟩
  · intro hCR
    rw [hform]
    have hdiv1 : 1 ≤ R / countries.length := (Nat.one_le_div_iff hC0).mpr hCR
    have hmax : max 1 ((R / countries.length : Nat) : Int) =
        ((R / countries.length : Nat) : Int) := by
      rw [max_eq_right]
      exact_mod_cast hdiv1
    rw [hmax, quota_targets_sum_aux _ _ _ (by positivity)
      (by exact_mod_cast (Nat.mod_lt R hC0).le)]
    push_cast
    exact_mod_cast congrArg (Nat.cast : Nat → Int) (Nat.div_add_mod R countries.length)
  · intro hRC
    rw [hform]
    have hdiv0 : R / countries.length = 0 := Nat.div_eq_of_lt hRC
    have hmod : R % countries.length = R := Nat.mod_eq_of_lt hRC
    rw [hdiv0, hmod]
    have hmax : max 1 ((0 : Nat) : Int) = 1 := by norm_num
    rw [hmax, quota_targets_sum_aux _ _ _ (by positivity) (by exact_mod_cast hRC.le)]
    ring

/-- Claim C3, witness: R = 10 over three countries sums to 10 with targets
[4, 3, 3]. -/
theorem quota_distribution_witness :
    (CheckPy.quota_targets ((10 : Nat) : Int) ["A", "B", "C"]).sum = 10 :=
  (quota_distribution 10 ["A", "B", "C"] (by decide) (by decide)).2.1 (by decide)

/-- Claim C7: a negative `--total-cidrs` value is truthy in Python, so it
flows straight into quota computation — `main` proceeds into per-country
collection with target [1] instead of rejecting the configuration; by
contrast an argument list with no valid country code is rejected before any
network activity. -/
theorem negative_total_reaches_quota :
    CheckPy.main_quota_stage ["US"] (-5) 20 = some [1] ∧
    CheckPy.resolve_total_cidrs (-5) 20 = -5 ∧
    CheckPy.main_quota_stage ["USA", "G1"] 10 20 = none := by
  refine ⟨?_, by decide, ?_⟩ <;> decide

/-- Membership in the accumulated `seen` set after a dedup scan. -/
theorem mem_seenAfter (x : String) :
    ∀ (l seen : List String), x ∈ CheckPy.seenAfter seen l ↔ x ∈ seen ∨ x ∈ l := by
  intro l
  induction l with
  | nil => intro seen; simp [CheckPy.seenAfter]
  | cons c rest ih =>
      intro seen
      by_cases hc : c ∈ seen
      · rw [CheckPy.seenAfter, if_pos hc, ih]
        constructor
        · rintro (h | h)
          · exact Or.inl h
          · exact Or.inr (List.mem_cons_of_mem _ h)
        · rintro (h | h)
          · exact Or.inl h
          · rcases List.mem_cons.mp h with h | h
            · exact Or.inl (h ▸ hc)
            · exact Or.inr h
      · rw [CheckPy.seenAfter, if_neg hc, ih]
        simp [List.mem_cons]
        tauto
  
/-- The dedup scan distributes over append, threading the `seen` set. -/
theorem dedupFrom_append (l1 : List String) :
    ∀ (l2 seen : List String),
      CheckPy.dedupFrom seen (l1 ++ l2) =
        CheckPy.dedupFrom seen l1 ++ CheckPy.dedupFrom (CheckPy.seenAfter seen l1) l2 := by
  induction l1 with
  | nil => intro l2 seen; simp [CheckPy.dedupFrom, CheckPy.seenAfter]
  | cons c rest ih =>
      intro l2 seen
      by_cases hc : c ∈ seen <;>
        simp [CheckPy.dedupFrom, CheckPy.seenAfter, hc, ih]

/-- Membership in a dedup scan result. -/
theorem mem_dedupFrom (x : String) :
    ∀ (l seen : List String), x ∈ CheckPy.dedupFrom seen l ↔ x ∈ l ∧ x ∉ seen := by
  intro l
  induction l with
  | nil => intro seen; simp [CheckPy.dedupFrom]
  | cons c rest ih =>
      intro seen
      by_cases hc : c ∈ seen
      · rw [CheckPy.dedupFrom, if_pos hc, ih]
        constructor
        · rintro ⟨h1, h2⟩
          exact ⟨List.mem_cons_of_mem _ h1, h2⟩
        · rintro ⟨h1, h2⟩
          rcases List.mem_cons.mp h1 with h | h
          · exact absurd (h ▸ hc) h2
          · exact ⟨h, h2⟩
      · rw [CheckPy.dedupFrom, if_neg hc]
        by_cases hx : x = c
        · subst hx
          simp [List.mem_cons, hc]
        · rw [List.mem_cons]
          constructor
          · rintro (h | h)
            · exact absurd h hx
            · rcases (ih (c :: seen)).mp h with ⟨h1, h2⟩
              refine ⟨List.mem_cons_of_mem _ h1, fun hs => h2 (List.mem_cons_of_mem _ hs)⟩
          · rintro ⟨h1, h2⟩
            rcases List.mem_cons.mp h1 with h | h
            · exact absurd h hx
            · exact Or.inr ((ih (c :: seen)).mpr
                ⟨h, fun hs => (List.mem_cons.mp hs).elim hx h2⟩)

/-- A dedup scan result is a sublist of its input. -/
theorem dedupFrom_sublist :
    ∀ (l seen : List String), List.Sublist (CheckPy.dedupFrom seen l) l := by
  intro l
  induction l with
  | nil => intro seen; simp [CheckPy.dedupFrom]
  | cons c rest ih =>
      intro seen
      rw [CheckPy.dedupFrom]
      by_cases hc : c ∈ seen
      · rw [if_pos hc]
        exact (ih seen).cons c
      · rw [if_neg hc]
        exact (ih (c :: seen)).cons₂ c

/-- A dedup scan result has no duplicates. -/
theorem nodup_dedupFrom :
    ∀ (l seen : List String), (CheckPy.dedupFrom seen l).Nodup := by
  intro l
  induction l with
  | nil => intro seen; simp [CheckPy.dedupFrom]
  | cons c rest ih =>
      intro seen
      rw [CheckPy.dedupFrom]
      by_cases hc : c ∈ seen
      · rw [if_pos hc]; exact ih seen
      · rw [if_neg hc]
        refine List.nodup_cons.mpr ⟨fun hmem => ?_, ih (c :: seen)⟩
        exact ((mem_dedupFrom c rest (c :: seen)).mp hmem).2 (List.mem_cons_self c seen)

/-- A dedup scan leaves an already-duplicate-free list untouched when the
`seen` set is disjoint from it. -/
theorem dedupFrom_eq_self :
    ∀ (l seen : List String), l.Nodup → (∀ x ∈ l, x ∉ seen) →
      CheckPy.dedupFrom seen l = l := by
  intro l
  induction l with
  | nil => intro seen _ _; rfl
  | cons c rest ih =>
      intro seen hnd hdisj
      rw [CheckPy.dedupFrom, if_neg (hdisj c (List.mem_cons_self c rest))]
      congr 1
      refine ih (c :: seen) (List.nodup_cons.mp hnd).2 ?_
      intro x hx
      rw [List.mem_cons]
      rintro (h | h)
      · exact (List.nodup_cons.mp hnd).1 (h ▸ hx)
      · exact hdisj x (List.mem_cons_of_mem _ hx) h

/-- Claim C9: the order-preserving dedup pass of `process_country` keeps each
CIDR exactly once at its first-seen position (appending an already-seen CIDR
changes nothing; a fresh one is appended at the end), its output has no
duplicates, preserves membership and relative order (it is a sublist of the
input), and re-running it over an already-deduplicated list leaves it
unchanged. -/
theorem dedup_first_seen_idempotent :
    (∀ (l : List String) (x : String),
      CheckPy.dedup_cidrs (l ++ [x]) =
        if x ∈ l then CheckPy.dedup_cidrs l else CheckPy.dedup_cidrs l ++ [x]) ∧
    (∀ l : List String, (CheckPy.dedup_cidrs l).Nodup) ∧
    (∀ (l : List String) (x : String), x ∈ CheckPy.dedup_cidrs l ↔ x ∈ l) ∧
    (∀ l : List String, List.Sublist (CheckPy.dedup_cidrs l) l) ∧
    (∀ l : List String, CheckPy.dedup_cidrs (CheckPy.dedup_cidrs l) = CheckPy.dedup_cidrs l) := by
  have hmem : ∀ (l : List String) (x : String), x ∈ CheckPy.dedup_cidrs l ↔ x ∈ l := by
    intro l x
    rw [CheckPy.dedup_cidrs, mem_dedupFrom]
    simp
  refine ⟨?_, fun l => nodup_dedupFrom l [], hmem, fun l => dedupFrom_sublist l [],
    fun l => ?_⟩
  · intro l x
    rw [CheckPy.dedup_cidrs, dedupFrom_append]
    have hseen : x ∈ CheckPy.seenAfter [] l ↔ x ∈ l := by
      rw [mem_seenAfter]; simp
    by_cases hx : x ∈ l
    · rw [CheckPy.dedupFrom, if_pos (hseen.mpr hx), if_pos hx]
      simp [CheckPy.dedup_cidrs, CheckPy.dedupFrom]
    · rw [CheckPy.dedupFrom, if_neg (fun h => hx (hseen.mp h)), if_neg hx]
      simp [CheckPy.dedup_cidrs, CheckPy.dedupFrom]
  · rw [CheckPy.dedup_cidrs]
    exact dedupFrom_eq_self _ [] (nodup_dedupFrom l []) (by simp)

/-- Python's `hosts()` is never empty for an IPv4 network. -/
theorem hostCount_pos (n : CheckPy.Ipv4Net) : 0 < CheckPy.hostCount n := by
  unfold CheckPy.hostCount
  split_ifs with h1 h2
  · have h4 : 2 ^ 2 ≤ 2 ^ (32 - n.prefixlen) :=
      Nat.pow_le_pow_right (by norm_num) (by omega)
    omega
  · omega
  · omega

/-- Claim C6: `generate_test_ip` is total for every parsed network — with the
offset drawn from `randint(-min(100, middle//2), min(100, middle//2))` it
always returns some address; when the network has more than 10 usable hosts
the address is the one at index `middle + offset`, and that index always
stays inside the usable host range (no `IndexError`); an unparseable CIDR
yields the explicit `none`. -/
theorem generate_test_ip_total :
    ∀ (n : CheckPy.Ipv4Net) (offset : Int) (pick : Nat),
      n.prefixlen ≤ 32 →
      -((min 100 (CheckPy.hostCount n / 2 / 2) : Nat) : Int) ≤ offset →
      offset ≤ ((min 100 (CheckPy.hostCount n / 2 / 2) : Nat) : Int) →
      (CheckPy.generate_test_ip (some n) offset pick).isSome = true ∧
      (10 < CheckPy.hostCount n →
        0 ≤ ((CheckPy.hostCount n / 2 : Nat) : Int) + offset ∧
        ((CheckPy.hostCount n / 2 : Nat) : Int) + offset < (CheckPy.hostCount n : Int) ∧
        CheckPy.generate_test_ip (some n) offset pick =
          some (CheckPy.hostAddr n
            ((((CheckPy.hostCount n / 2 : Nat) : Int) + offset).toNat))) ∧
      CheckPy.generate_test_ip none offset pick = none := by
  intro n offset pick hp hlo hhi
  have hminle : min 100 (CheckPy.hostCount n / 2 / 2) ≤ CheckPy.hostCount n / 2 / 2 :=
    min_le_right _ _
  by_cases h10 : 10 < CheckPy.hostCount n
  · have hlow : 0 ≤ ((CheckPy.hostCount n / 2 : Nat) : Int) + offset := by omega
    have hhigh : ((CheckPy.hostCount n / 2 : Nat) : Int) + offset <
        (CheckPy.hostCount n : Int) := by omega
    have heq : CheckPy.generate_test_ip (some n) offset pick =
        some (CheckPy.hostAddr n
          ((((CheckPy.hostCount n / 2 : Nat) : Int) + offset).toNat)) := by
      rw [CheckPy.generate_test_ip]
      simp only [if_pos h10]
      rw [if_neg (by omega : ¬ ((CheckPy.hostCount n / 2 : Nat) : Int) + offset < 0)]
      rw [if_pos ⟨hlow, hhigh⟩]
    refine ⟨?_, fun _ => ⟨hlow, hhigh, heq⟩, rfl⟩
    rw [heq]; rfl
  · refine ⟨?_, fun h => absurd h h10, rfl⟩
    have hpos := hostCount_pos n
    rw [CheckPy.generate_test_ip]
    simp only [if_neg h10, if_pos hpos]
    rfl

/-- Claim C6, witness: a /24 network (254 usable hosts), offset 7 within the
bound min(100, 63) = 63: the probe address is host index 134. -/
theorem generate_test_ip_total_witness :
    CheckPy.hostCount ⟨0, 24⟩ = 254 ∧
    -((min 100 (CheckPy.hostCount ⟨0, 24⟩ / 2 / 2) : Nat) : Int) ≤ 7 ∧
    ((7 : Int) ≤ ((min 100 (CheckPy.hostCount ⟨0, 24⟩ / 2 / 2) : Nat) : Int)) ∧
    CheckPy.generate_test_ip (some ⟨0, 24⟩) 7 0 = some (CheckPy.hostAddr ⟨0, 24⟩ 134) := by
  refine ⟨by decide, by decide, by decide, ?_⟩
  have h := (generate_test_ip_total ⟨0, 24⟩ 7 0 (by decide) (by decide) (by decide)).2.1
    (by decide)
  have heq := h.2.2
  rw [heq]
  decide

/-- The stable sort by score is a permutation of its input. -/
theorem sortByScore_perm (l : List CheckPy.TestResult) :
    List.Perm (CheckPy.sortByScore l) l :=
  List.mergeSort_perm l _

/-- The stable sort by score is sorted by score. -/
theorem sortByScore_pairwise (l : List CheckPy.TestResult) :
    (CheckPy.sortByScore l).Pairwise (fun a b => a.score ≤ b.score) := by
  have htrans : ∀ a b c : CheckPy.TestResult,
      CheckPy.scoreLe a b → CheckPy.scoreLe b c → CheckPy.scoreLe a c := by
    intro a b c hab hbc
    simp only [CheckPy.scoreLe, decide_eq_true_eq] at hab hbc ⊢
    exact le_trans hab hbc
  have htotal : ∀ a b : CheckPy.TestResult,
      CheckPy.scoreLe a b || CheckPy.scoreLe b a := by
    intro a b
    simp only [CheckPy.scoreLe]
    rcases le_total a.score b.score with h | h <;> simp [h]
  have h := List.sorted_mergeSort htrans htotal l
  exact h.imp (fun hab => by
    simpa only [CheckPy.scoreLe, decide_eq_true_eq] using hab)

/-- Every record built by `test_cidr_cleanliness` has its `clean` flag equal
to the save-threshold test `score <= 10`. -/
theorem test_cidr_cleanliness_clean_iff (c ip : String) (sb : ℚ × Bool) :
    (CheckPy.test_cidr_cleanliness c ip sb).clean = true ↔
      (CheckPy.test_cidr_cleanliness c ip sb).score ≤ 10 := by
  simp [CheckPy.test_cidr_cleanliness]

/-- Claim C5: on a pool of records produced by `test_cidr_cleanliness`, the
list returned by the selection tail of `process_country` is sorted ascending
by score, has length `min target poolsize` (hence at most the target), counts
`min target (number of clean candidates)` clean members, places all clean
members before all non-clean backfill members, and only contains members of
the pool. -/
theorem selector_sorted_bounded :
    ∀ (tested : List CheckPy.TestResult) (target : Nat),
      (∀ r ∈ tested, ∃ c ip sb, r = CheckPy.test_cidr_cleanliness c ip sb) →
      (CheckPy.select_cidrs tested target).Pairwise (fun a b => a.score ≤ b.score) ∧
      (CheckPy.select_cidrs tested target).length = min target tested.length ∧
      ((CheckPy.select_cidrs tested target).filter (fun r => r.clean)).length =
        min target ((tested.filter (fun r => r.clean)).length) ∧
      CheckPy.select_cidrs tested target =
        (CheckPy.select_cidrs tested target).filter (fun r => r.clean) ++
          (CheckPy.select_cidrs tested target).filter (fun r => !r.clean) ∧
      (∀ r ∈ CheckPy.select_cidrs tested target, r ∈ tested) := by
  intro tested target hsrc
  have hperm := sortByScore_perm tested
  have hsort := sortByScore_pairwise tested
  have hcc : ∀ r ∈ CheckPy.sortByScore tested, (r.clean = true ↔ r.score ≤ 10) := by
    intro r hr
    obtain ⟨c, ip, sb, rfl⟩ := hsrc r (hperm.mem_iff.mp hr)
    exact test_cidr_cleanliness_clean_iff c ip sb
  set sorted := CheckPy.sortByScore tested with hsorted
  set cl := sorted.filter (fun r => r.clean) with hcl
  set ncl := sorted.filter (fun r => !r.clean) with hncl
  have hcl_sub : List.Sublist cl sorted := List.filter_sublist sorted
  have hncl_sub : List.Sublist ncl sorted := List.filter_sublist sorted
  have hcl_pw : cl.Pairwise (fun a b => a.score ≤ b.score) := hsort.sublist hcl_sub
  have hncl_pw : ncl.Pairwise (fun a b => a.score ≤ b.score) := hsort.sublist hncl_sub
  have hcl_le : ∀ r ∈ cl, r.score ≤ 10 := by
    intro r hr
    have h := List.mem_filter.mp hr
    exact (hcc r h.1).mp h.2
  have hncl_gt : ∀ r ∈ ncl, 10 < r.score := by
    intro r hr
    have h := List.mem_filter.mp hr
    have hb : r.clean = false := by
      rcases hh : r.clean with _ | _
      · rfl
      · rw [hh] at h; simp at h
    by_contra hle
    push_neg at hle
    exact absurd ((hcc r h.1).mpr hle) (by simp [hb])
  have hsum : cl.length + ncl.length = tested.length := by
    rw [← hperm.length_eq]
    exact (List.length_eq_length_filter_add (fun (r : CheckPy.TestResult) => r.clean)).symm
  have hclt : (tested.filter (fun r => r.clean)).length = cl.length :=
    (hperm.filter (fun r => r.clean)).length_eq.symm
  rw [CheckPy.select_cidrs]
  rw [← hsorted, ← hcl, ← hncl]
  by_cases hlen : (cl.take target).length < target
  · rw [if_pos hlen]
    have hcllen : cl.length < target := by
      rw [List.length_take] at hlen
      omega
    have htk : cl.take target = cl := List.take_of_length_le hcllen.le
    rw [htk]
    set k := target - cl.length with hk
    set n2 := ncl.take k with hn2
    have hn2_sub : List.Sublist n2 ncl := List.take_sublist k ncl
    have hn2_gt : ∀ r ∈ n2, 10 < r.score := fun r hr => hncl_gt r (hn2_sub.mem hr)
    have hn2len : n2.length = min k ncl.length := List.length_take k ncl
    have hpw : (cl ++ n2).Pairwise (fun a b => a.score ≤ b.score) := by
      rw [List.pairwise_append]
      refine ⟨hcl_pw, hncl_pw.sublist hn2_sub, ?_⟩
      intro a ha b hb
      have h1 := hcl_le a ha
      have h2 := hn2_gt b hb
      linarith
    have hn2_clean_nil : n2.filter (fun r => r.clean) = [] := by
      apply List.filter_eq_nil_iff.mpr
      intro a ha hclean
      have h2 := hn2_gt a ha
      have h3 : a ∈ sorted := hncl_sub.mem (hn2_sub.mem ha)
      exact absurd ((hcc a h3).mp hclean) (by linarith)
    have hcl_self : cl.filter (fun r => r.clean) = cl :=
      List.filter_eq_self.mpr (fun a ha => (List.mem_filter.mp ha).2)
    have hcl_nclean_nil : cl.filter (fun r => !r.clean) = [] := by
      apply List.filter_eq_nil_iff.mpr
      intro a ha
      have h1 := hcl_le a ha
      have h3 : a ∈ sorted := hcl_sub.mem ha
      have hct : a.clean = true := (hcc a h3).mpr h1
      simp [hct]
    have hn2_self : n2.filter (fun r => !r.clean) = n2 := by
      apply List.filter_eq_self.mpr
      intro a ha
      have h2 := hn2_gt a ha
      have h3 : a ∈ sorted := hncl_sub.mem (hn2_sub.mem ha)
      rcases hh : a.clean with _ | _
      · simp [hh]
      · exact absurd ((hcc a h3).mp hh) (by linarith)
    have hfcl : (cl ++ n2).filter (fun r => r.clean) = cl := by
      rw [List.filter_append, hcl_self, hn2_clean_nil, List.append_nil]
    have hfncl : (cl ++ n2).filter (fun r => !r.clean) = n2 := by
      rw [List.filter_append, hcl_nclean_nil, hn2_self, List.nil_append]
    refine ⟨hpw, ?_, ?_, ?_, ?_⟩
    · rw [List.length_append, hn2len]
      omega
    · rw [hfcl, hclt]
      omega
    · rw [hfcl, hfncl]
    · intro r hr
      rcases List.mem_append.mp hr with h | h
      · exact hperm.mem_iff.mp (hcl_sub.mem h)
      · exact hperm.mem_iff.mp (hncl_sub.mem (hn2_sub.mem h))
  · rw [if_neg hlen]
    have htklen : (cl.take target).length = target := by
      have := List.length_take target cl
      omega
    have htgtle : target ≤ cl.length := by
      rw [List.length_take] at htklen
      omega
    have htk_sub : List.Sublist (cl.take target) cl := List.take_sublist target cl
    have hall_clean : ∀ a ∈ cl.take target, a.clean = true :=
      fun a ha => (List.mem_filter.mp (htk_sub.mem ha)).2
    refine ⟨hcl_pw.sublist htk_sub, ?_, ?_, ?_, ?_⟩
    · rw [htklen]
      omega
    · rw [List.filter_eq_self.mpr hall_clean, htklen, hclt]
      omega
    · rw [List.filter_eq_self.mpr hall_clean,
        List.filter_eq_nil_iff.mpr (fun a ha => by simp [hall_clean a ha]),
        List.append_nil]
    · intro r hr
      exact hperm.mem_iff.mp (hcl_sub.mem (htk_sub.mem hr))

/-- Claim C5, witness: a two-element pool (one clean, one dirty) with target
1 selects exactly the clean one. -/
theorem selector_sorted_bounded_witness :
    (CheckPy.select_cidrs
      [CheckPy.test_cidr_cleanliness "10.0.0.0/24" "10.0.0.127" (5, false),
        CheckPy.test_cidr_cleanliness "10.1.0.0/24" "10.1.0.127" (20, true)] 1).length =
      min 1 2 := by
  have h := (selector_sorted_bounded
    [CheckPy.test_cidr_cleanliness "10.0.0.0/24" "10.0.0.127" (5, false),
      CheckPy.test_cidr_cleanliness "10.1.0.0/24" "10.1.0.127" (20, true)] 1
    (by
      intro r hr
      rcases List.mem_cons.mp hr with h | h
      · exact ⟨"10.0.0.0/24", "10.0.0.127", (5, false), h⟩
      · rcases List.mem_cons.mp h with h | h
        · exact ⟨"10.1.0.0/24", "10.1.0.127", (20, true), h⟩
        · simp at h)).2.1
  simpa using h

end Csp
